import Mathlib

/-!
Shallow embedding of the worker lifecycle supervisor and job event relay of
the pdf-translate Electron main process (`apps/electron/main/index.js`) and of
the jobId filtering handlers of the renderer (`src/renderer/App.tsx`).

The Electron main process is single-threaded and event-driven; concurrent
`startEngineServer()` calls are interleaved whole (the synchronous prefix of
the function runs atomically up to its first `await`), so the supervisor's
mutable module-level variables are modelled as an explicit state record
threaded through the operations.  Promises are identified by the attempt id
that created them; spawning, kill signals, IPC sends and HTTP requests are
recorded as explicit outputs.
-/

/-! ## Engine supervisor state (module-level mutable variables of index.js) -/

def ENGINE_PORT : Nat := 18080

def HEALTH_CHECK_TIMEOUT_MS : Nat := 300

def HEALTH_POLL_INTERVAL_MS : Nat := 200

def HEALTH_POLL_TOTAL_MS : Nat := 10000

/-- The supervisor's owned mutable state: `engineServerPort`,
`engineServerProcess` (pid of the spawned worker), `engineServerReady`
(the in-flight start promise, identified by the id of the attempt that
created it) and the `isStoppingEngine` reentrancy flag.  `nextAttemptId`
is a ghost counter used to give each created start promise a fresh
identity. -/
structure EngineState where
  engineServerPort : Option Nat
  engineServerProcess : Option Nat
  engineServerReady : Option Nat
  isStoppingEngine : Bool
  nextAttemptId : Nat
deriving DecidableEq, Repr

/-- Synchronous prefix of `startEngineServer` (index.js lines 331-392):
`if (engineServerReady) return engineServerReady;` else create the async
attempt and store its promise in `engineServerReady`.  Returns the promise
(attempt id) the caller awaits. -/
def startEngineServer (s : EngineState) : Nat × EngineState :=
  match s.engineServerReady with
  | some attempt => (attempt, s)
  | none =>
      (s.nextAttemptId,
       { s with engineServerReady := some s.nextAttemptId,
                nextAttemptId := s.nextAttemptId + 1 })

/-- Result of running one start attempt body (the async IIFE inside
`startEngineServer`): how many worker processes it spawned and the
outcome every sharer of the promise observes. -/
structure AttemptResult where
  spawnCount : Nat
  outcome : Except String Nat
deriving Repr

/-- The async attempt body of `startEngineServer`: reuse an already healthy
engine without spawning; otherwise resolve the command (throwing without a
spawn when none is found), spawn exactly one process, and poll it for
health, killing it and failing on timeout. -/
def startAttemptBody (healthyBeforeStart : Bool) (commandResolved : Bool)
    (healthyAfterStart : Bool) : AttemptResult :=
  if healthyBeforeStart then ⟨0, .ok ENGINE_PORT⟩
  else if !commandResolved then ⟨0, .error "未找到可用的 pdf2zh 服务命令"⟩
  else if healthyAfterStart then ⟨1, .ok ENGINE_PORT⟩
  else ⟨1, .error "引擎服务健康检查超时（10s）"⟩

/-- `n` consecutive `startEngineServer()` calls with no intervening
resolution of the attempt (the single-threaded interleaving of `n`
concurrent callers issued before the first outcome resolves). -/
def startCalls : Nat → EngineState → List Nat × EngineState
  | 0, s => ([], s)
  | n + 1, s =>
      let c := startEngineServer s
      let r := startCalls n c.2
      (c.1 :: r.1, r.2)

/-- Kill signals emitted by `stopEngineServer`. -/
inductive KillSignal where
  | taskkillTree (pid : Nat)
  | sigtermGroup (pid : Nat)
  | sigtermSingle (pid : Nat)
  | delayedSigkill (pid : Nat)
deriving DecidableEq, Repr

/-- `stopEngineServer` (index.js lines 294-329): no-op unless a worker
process is owned and no stop is already running; otherwise send the
platform-specific kill signals (taskkill tree on win32; SIGTERM to the
process group, falling back to the single pid, plus a scheduled SIGKILL,
elsewhere) and clear all owned state in the `finally` block. -/
def stopEngineServer (isWin32 : Bool) (groupKillOk : Bool) (s : EngineState) :
    EngineState × List KillSignal :=
  match s.engineServerProcess with
  | none => (s, [])
  | some pid =>
      if s.isStoppingEngine then (s, [])
      else
        let signals :=
          if isWin32 then [KillSignal.taskkillTree pid]
          else
            (if groupKillOk then [KillSignal.sigtermGroup pid]
             else [KillSignal.sigtermSingle pid])
              ++ [KillSignal.delayedSigkill pid]
        ({ s with engineServerProcess := none, engineServerPort := none,
                  engineServerReady := none, isStoppingEngine := false },
         signals)

/-- The `engineServerProcess.on('close')` handler (index.js lines 368-373):
clears the cached port, the start promise and the process handle. -/
def onEngineClose (s : EngineState) : EngineState :=
  { s with engineServerPort := none, engineServerReady := none,
           engineServerProcess := none }

/-! ## JSON values (the output of JSON.parse on event and result payloads) -/

mutual
/-- JSON values as produced by `JSON.parse` (numbers restricted to the
integers, which covers every payload this program inspects). -/
inductive Json where
  | null
  | bool (b : Bool)
  | num (n : Int)
  | str (s : String)
  | arr (elems : JList)
  | obj (fields : JFields)
deriving DecidableEq, Repr

/-- A list of JSON array elements. -/
inductive JList where
  | nil
  | cons (v : Json) (rest : JList)
deriving DecidableEq, Repr

/-- An ordered list of JSON object fields. -/
inductive JFields where
  | nil
  | cons (k : String) (v : Json) (rest : JFields)
deriving DecidableEq, Repr
end

/-- Build a `JFields` from a list of key/value pairs (in order). -/
def jfields : List (String × Json) → JFields
  | [] => .nil
  | (k, v) :: rest => .cons k v (jfields rest)

/-- Append two field lists (used to model object spread). -/
def JFields.append : JFields → JFields → JFields
  | .nil, ys => ys
  | .cons k v rest, ys => .cons k v (rest.append ys)

/-- Property lookup on an object's fields.  The earliest entry wins, so a
field list models a JS object when overriding entries are placed first. -/
def lookupField : JFields → String → Option Json
  | .nil, _ => none
  | .cons k' v rest, k => if k' = k then some v else lookupField rest k

/-- Property access `j.k`: `none` models `undefined` (non-objects have no
payload properties this program reads). -/
def Json.getField : Json → String → Option Json
  | .obj fields, k => lookupField fields k
  | _, _ => none

/-- JS truthiness of a JSON value. -/
def jsonTruthy : Json → Bool
  | .null => false
  | .bool b => b
  | .num n => n != 0
  | .str s => s != ""
  | .arr _ => true
  | .obj _ => true

/-- Truthiness of the property `k` of `j` (`undefined` is falsy). -/
def truthyField (j : Json) (k : String) : Bool :=
  match j.getField k with
  | some v => jsonTruthy v
  | none => false

/-- JS strict comparison `j.k === s` against a string literal. -/
def Json.fieldIsStr (j : Json) (k v : String) : Bool :=
  match j.getField k with
  | some (.str s) => s = v
  | _ => false

/-- JS `x || dflt` applied to an optional property value. -/
def jsOr (v : Option Json) (dflt : Json) : Json :=
  match v with
  | some x => if jsonTruthy x then x else dflt
  | none => dflt

/-! ## JSON.parse (recursive descent over the character list, fuelled) -/

/-- JSON whitespace. -/
def isJsonWs (c : Char) : Bool :=
  c = ' ' || c = '\t' || c = '\n' || c = '\r'

/-- Drop leading JSON whitespace. -/
def skipWs (cs : List Char) : List Char := cs.dropWhile isJsonWs

/-- ASCII decimal digit. -/
def isAsciiDigit (c : Char) : Bool := '0' ≤ c && c ≤ '9'

/-- Accumulate a run of decimal digits. -/
def takeDigits (acc : Nat) : List Char → Nat × List Char
  | c :: cs =>
      if isAsciiDigit c then takeDigits (acc * 10 + (c.toNat - '0'.toNat)) cs
      else (acc, c :: cs)
  | [] => (acc, [])

/-- Parse at least one decimal digit. -/
def parseDigits : List Char → Option (Nat × List Char)
  | c :: cs =>
      if isAsciiDigit c then some (takeDigits (c.toNat - '0'.toNat) cs)
      else none
  | [] => none

/-- Translate a character following a backslash in a string literal. -/
def unescapeChar (c : Char) : Char :=
  if c = 'n' then '\n'
  else if c = 't' then '\t'
  else if c = 'r' then '\r'
  else c

/-- Parse the body of a string literal after the opening quote, returning
the content and the characters after the closing quote. -/
def parseStringBody : List Char → Option (List Char × List Char)
  | [] => none
  | '"' :: cs => some ([], cs)
  | '\\' :: c :: cs => do
      let (s, rest) ← parseStringBody cs
      pure (unescapeChar c :: s, rest)
  | ['\\'] => none
  | c :: cs => do
      let (s, rest) ← parseStringBody cs
      pure (c :: s, rest)

mutual
/-- Parse one JSON value. -/
def parseVal (fuel : Nat) (cs : List Char) : Option (Json × List Char) :=
  match fuel with
  | 0 => none
  | fuel + 1 =>
    match skipWs cs with
    | '{' :: rest =>
        (match skipWs rest with
         | '}' :: rest' => some (.obj .nil, rest')
         | rest' => do
             let (fs, rest'') ← parseMembers fuel rest'
             pure (.obj fs, rest''))
    | '[' :: rest =>
        (match skipWs rest with
         | ']' :: rest' => some (.arr .nil, rest')
         | rest' => do
             let (xs, rest'') ← parseElems fuel rest'
             pure (.arr xs, rest''))
    | '"' :: rest => do
        let (s, rest') ← parseStringBody rest
        pure (.str (String.mk s), rest')
    | 't' :: 'r' :: 'u' :: 'e' :: rest => some (.bool true, rest)
    | 'f' :: 'a' :: 'l' :: 's' :: 'e' :: rest => some (.bool false, rest)
    | 'n' :: 'u' :: 'l' :: 'l' :: rest => some (.null, rest)
    | '-' :: rest => do
        let (n, rest') ← parseDigits rest
        pure (.num (-(n : Int)), rest')
    | rest => do
        let (n, rest') ← parseDigits rest
        pure (.num (n : Int), rest')

/-- Parse the members of an object after `{` (at least one member). -/
def parseMembers (fuel : Nat) (cs : List Char) : Option (JFields × List Char) :=
  match fuel with
  | 0 => none
  | fuel + 1 =>
    match skipWs cs with
    | '"' :: rest => do
        let (k, rest1) ← parseStringBody rest
        match skipWs rest1 with
        | ':' :: rest2 => do
            let (v, rest3) ← parseVal fuel rest2
            (match skipWs rest3 with
             | ',' :: rest4 => do
                 let (fs, rest5) ← parseMembers fuel rest4
                 pure (.cons (String.mk k) v fs, rest5)
             | '}' :: rest4 => pure (.cons (String.mk k) v .nil, rest4)
             | _ => none)
        | _ => none
    | _ => none

/-- Parse the elements of an array after `[` (at least one element). -/
def parseElems (fuel : Nat) (cs : List Char) : Option (JList × List Char) :=
  match fuel with
  | 0 => none
  | fuel + 1 => do
      let (v, rest) ← parseVal fuel cs
      match skipWs rest with
      | ',' :: rest' => do
          let (xs, rest'') ← parseElems fuel rest'
          pure (.cons v xs, rest'')
      | ']' :: rest' => pure (.cons v .nil, rest')
      | _ => none
end

/-- `JSON.parse` on a trimmed line: parse one value and require that only
whitespace remains; `none` models a thrown `SyntaxError`. -/
def jsonParse (cs : List Char) : Option Json :=
  match parseVal (cs.length + 1) cs with
  | some (v, rest) => if (skipWs rest).isEmpty then some v else none
  | none => none

/-! ## Health poll loop (`waitForEngineHealthy`, index.js lines 122-130) -/

/-- `waitForEngineHealthy`: repeatedly probe until the deadline, sleeping
`HEALTH_POLL_INTERVAL_MS` between probes.  `healthyAt t` is the result of
the probe issued at time `t` and `probeDuration` how long that probe takes
(a probe against an endpoint that never answers runs to its abort timer,
`HEALTH_CHECK_TIMEOUT_MS`).  Returns the boolean outcome and the instant at
which the call resolves. -/
def waitForEngineHealthy (healthyAt : Nat → Bool) (probeDuration : Nat)
    (deadline now : Nat) : Bool × Nat :=
  if now < deadline then
    if healthyAt now then (true, now + probeDuration)
    else
      waitForEngineHealthy healthyAt probeDuration deadline
        (now + probeDuration + HEALTH_POLL_INTERVAL_MS)
  else (false, now)
termination_by deadline - now
decreasing_by simp only [HEALTH_POLL_INTERVAL_MS]; omega

/-! ## Job event relay (`openProgressStream`, index.js lines 422-487) -/

/-- Actions emitted while scanning a job's event stream: an immediate
progress send, an immediate error send (both with the merged
`{ jobId, ...payload }` object), or the asynchronous result fetch started
by a `done` event. -/
inductive RelayAction where
  | sendProgress (data : JFields)
  | fetchDone (jobId : String)
  | sendError (data : JFields)
deriving DecidableEq, Repr

/-- The object literal `{ jobId, ...payload }`: the spread fields override
the explicit `jobId`, so under first-entry-wins lookup they come first. -/
def spreadWithJobId (jobId : String) : Json → JFields
  | .obj fields => fields.append (jfields [("jobId", .str jobId)])
  | _ => jfields [("jobId", .str jobId)]

/-- Trim JS whitespace from both ends of a line (`String.prototype.trim`). -/
def trimChars (cs : List Char) : List Char :=
  ((cs.dropWhile isJsonWs).reverse.dropWhile isJsonWs).reverse

/-- The characters of the `data:` event marker. -/
def dataMarker : List Char := ['d', 'a', 't', 'a', ':']

/-- Process one complete line of the stream: trim it, skip it unless it
starts with `data:`, strip the marker, trim again, skip when empty, parse
the JSON payload (skipping on a parse error) and dispatch on
`payload.type`. -/
def handleLine (jobId : String) (rawLine : List Char) : List RelayAction :=
  let line := trimChars rawLine
  if dataMarker.isPrefixOf line then
    let jsonStr := trimChars (line.drop 5)
    if jsonStr.isEmpty then []
    else
      match jsonParse jsonStr with
      | none => []
      | some payload =>
          (if payload.fieldIsStr "type" "progress" then
             [RelayAction.sendProgress (spreadWithJobId jobId payload)]
           else [])
            ++ (if payload.fieldIsStr "type" "done" then
                  [RelayAction.fetchDone jobId]
                else [])
            ++ (if payload.fieldIsStr "type" "error" then
                  [RelayAction.sendError (spreadWithJobId jobId payload)]
                else [])
  else []

/-- Split a buffer into its complete (newline-terminated) lines and the
trailing remainder, exactly as the relay's
`while ((index = buffer.indexOf('\n')) >= 0)` loop consumes it. -/
def scanBuffer : List Char → List (List Char) × List Char
  | [] => ([], [])
  | c :: cs =>
      if c = '\n' then
        let r := scanBuffer cs
        ([] :: r.1, r.2)
      else
        match scanBuffer cs with
        | ([], rem) => ([], c :: rem)
        | (l :: ls, rem) => ((c :: l) :: ls, rem)

/-- The stream's `data` handler: append the chunk to the buffer, consume
every complete line in order, and keep the remainder buffered. -/
def onStreamData (jobId : String) (buffer chunk : List Char) :
    List Char × List RelayAction :=
  let r := scanBuffer (buffer ++ chunk)
  (r.2, (r.1.map (handleLine jobId)).flatten)

/-- Deliver a sequence of chunks to a fresh stream connection, collecting
the relay actions in order. -/
def runStream (jobId : String) (chunks : List (List Char)) :
    List Char × List RelayAction :=
  chunks.foldl
    (fun acc chunk =>
      let r := onStreamData jobId acc.1 chunk
      (r.1, acc.2 ++ r.2))
    ([], [])

/-! ## Result fetch with retry (`fetchResultWithRetry`, index.js 407-420) -/

/-- `fetchResultWithRetry`: fetch the job's result (the response to the
`attempt`-th GET is `resp attempt`; `.error` models a rejected fetch).
A truthy `ok` resolves with the response; the sentinel
`error === 'job not finished'` retries after the fixed delay while retries
remain; anything else resolves with the response as-is. -/
def fetchResultWithRetry (resp : Nat → Except String Json)
    (attempt retries : Nat) : Except String Json :=
  match resp attempt with
  | .error e => .error e
  | .ok result =>
      if jsonTruthy result && truthyField result "ok" then .ok result
      else if jsonTruthy result && result.fieldIsStr "error" "job not finished" then
        match retries with
        | r + 1 => fetchResultWithRetry resp (attempt + 1) r
        | 0 => .ok result
      else .ok result

/-- Notifications sent to the renderer over the three `pdf2zh:*` channels. -/
inductive Notif where
  | progress (data : JFields)
  | done (data : JFields)
  | error (data : JFields)
deriving DecidableEq, Repr

/-- The `done` branch of the relay: run `fetchResultWithRetry` (10 retries)
and translate its resolution into notifications — a single successful
`done`, or an `error` built from the response paired with a failed `done`,
or (when the fetch chain rejects) the catch handler's `error` paired with a
failed `done`. -/
def handleDone (jobId : String) (resp : Nat → Except String Json) : List Notif :=
  match fetchResultWithRetry resp 0 10 with
  | .ok result =>
      if jsonTruthy result && truthyField result "ok" then
        [Notif.done (jfields
          [("jobId", .str jobId), ("ok", .bool true), ("result", result)])]
      else
        [Notif.error (jfields
           [("jobId", .str jobId),
            ("message", jsOr (result.getField "error") (.str "引擎执行失败")),
            ("detail", jsOr (result.getField "detail") (.str ""))]),
         Notif.done (jfields [("jobId", .str jobId), ("ok", .bool false)])]
  | .error e =>
      [Notif.error (jfields
         [("jobId", .str jobId), ("message", .str "获取结果失败"),
          ("detail", .str e)]),
       Notif.done (jfields [("jobId", .str jobId), ("ok", .bool false)])]

/-- Resolve a relay action into the notifications it eventually sends. -/
def resolveAction (resp : Nat → Except String Json) : RelayAction → List Notif
  | .sendProgress data => [Notif.progress data]
  | .fetchDone jobId => handleDone jobId resp
  | .sendError data => [Notif.error data]

/-! ## Renderer jobId filtering (`src/renderer/App.tsx` lines 41-94) -/

/-- The renderer state touched by the notification handlers. -/
structure AppState where
  progressPct : Int
  statusText : String
  isTranslating : Bool
  result : Option (String × String)
  outputFilename : String
  selectedFilePath : Option String
  sourceFileName : String
  errorText : String
  jobIdWatched : Option String
deriving DecidableEq, Repr

/-- JS truthiness of a `string | null` value. -/
def strTruthy : Option String → Bool
  | some s => s != ""
  | none => false

/-- `[stage, message].filter(Boolean).join(' ')`. -/
def joinStatus (stage message : String) : String :=
  String.intercalate " "
    ((if stage != "" then [stage] else [])
      ++ (if message != "" then [message] else []))

/-- The `onProgress` handler: react only when the event's jobId is truthy
and strictly equals the watched jobId. -/
def onProgressMsg (st : AppState) (jobId : Option String) (pct : Int)
    (stage message : String) : AppState :=
  if strTruthy jobId && (jobId = st.jobIdWatched : Bool) then
    { st with progressPct := pct, statusText := joinStatus stage message }
  else st

/-- The `onDone` handler: react only when the event's jobId is truthy and
strictly equals the watched jobId; a successful done with a result payload
stores it, a successful done without one falls back to pulling the result
(the returned flag records that the async `getResult` call was issued). -/
def onDoneMsg (st : AppState) (jobId : Option String) (ok : Bool)
    (result : Option (String × String)) : AppState × Bool :=
  if strTruthy jobId && (jobId = st.jobIdWatched : Bool) then
    let st1 := { st with isTranslating := false }
    match ok, result with
    | true, some r =>
        ({ st1 with result := some r, outputFilename := r.1,
                    selectedFilePath := none, sourceFileName := "" }, false)
    | true, none => (st1, true)
    | false, _ => (st1, false)
  else (st, false)

/-- The `onError` handler: react when the event's jobId is falsy or
strictly equals the watched jobId. -/
def onErrorMsg (st : AppState) (jobId : Option String) (message : String) :
    AppState :=
  if !strTruthy jobId || (jobId = st.jobIdWatched : Bool) then
    { st with isTranslating := false, result := none, errorText := message }
  else st

/-! ## The `start-translate` IPC handler (index.js lines 489-521) -/

/-- Externally visible steps of the `start-translate` handler. -/
inductive MainAction where
  | ensureEngine
  | notifyError (jobId : Option String) (message : String)
  | postTranslate (sourcePath service : String)
  | openStream (jobId : String)
deriving DecidableEq, Repr

/-- The `start-translate` handler: reject an empty file path with an error
notification; await `startEngineServer()` (outcome `ensure`, rethrowing its
failure); reject services other than google/bing with an error notification
and a thrown error before any POST; otherwise POST `/translate` and open
the progress stream when the returned jobId is truthy. -/
def startTranslateHandler (filePath service : String)
    (ensure : Except String Nat) (translateJobId : Option String) :
    List MainAction × Except String (Option String) :=
  if filePath = "" then
    ([.notifyError none "未选择 PDF 文件"], .ok none)
  else
    match ensure with
    | .error e => ([.ensureEngine], .error e)
    | .ok _ =>
        if service ≠ "google" && service ≠ "bing" then
          ([.ensureEngine, .notifyError none ("不支持的翻译服务: " ++ service)],
           .error ("不支持的翻译服务: " ++ service))
        else
          let acts := [MainAction.ensureEngine,
                       MainAction.postTranslate filePath service]
          match translateJobId with
          | some j =>
              if j ≠ "" then (acts ++ [.openStream j], .ok (some j))
              else (acts, .ok (some j))
          | none => (acts, .ok none)

/-! ## Helper lemmas -/

/-- Calls arriving while a start promise is stored all return that promise
and leave the state untouched. -/
theorem startCalls_pending (n : Nat) (s : EngineState) (a : Nat)
    (h : s.engineServerReady = some a) :
    startCalls n s = (List.replicate n a, s) := by
  induction n with
  | zero => simp [startCalls]
  | succ n ih => simp [startCalls, startEngineServer, h, ih, List.replicate]

/-- The never-healthy poll loop advances in steps of
`HEALTH_CHECK_TIMEOUT_MS + HEALTH_POLL_INTERVAL_MS = 500` ms and resolves
false exactly when the deadline is reached. -/
theorem waitForEngineHealthy_never (k : Nat) :
    ∀ s0, waitForEngineHealthy (fun _ => false) HEALTH_CHECK_TIMEOUT_MS
        (s0 + 500 * k) s0 = (false, s0 + 500 * k) := by
  induction k with
  | zero =>
      intro s0
      rw [waitForEngineHealthy]
      simp
  | succ k ih =>
      intro s0
      rw [waitForEngineHealthy]
      have h : s0 < s0 + 500 * (k + 1) := by omega
      rw [if_pos h]
      have harg : s0 + HEALTH_CHECK_TIMEOUT_MS + HEALTH_POLL_INTERVAL_MS
          = s0 + 500 := by
        simp [HEALTH_CHECK_TIMEOUT_MS, HEALTH_POLL_INTERVAL_MS]
      have hdl : s0 + 500 * (k + 1) = (s0 + 500) + 500 * k := by ring
      simp only [Bool.false_eq_true, if_false, harg, hdl]
      exact ih (s0 + 500)

/-! ## Claims -/

/-- C1: single-flight start — for every set of concurrent
`ensureReady()`/`startEngineServer()` calls issued while no attempt has yet
resolved, all callers receive the same promise (hence the same port on
success or the same failure on error), exactly one attempt is created, and
one attempt spawns at most one worker process. -/
theorem c1_single_flight_start (n : Nat) (s : EngineState)
    (h : s.engineServerReady = none) :
    (∀ r ∈ (startCalls (n + 1) s).1, r = s.nextAttemptId) ∧
    (startCalls (n + 1) s).2.nextAttemptId = s.nextAttemptId + 1 ∧
    (∀ hb cr ha, (startAttemptBody hb cr ha).spawnCount ≤ 1) := by
  have hs : startEngineServer s =
      (s.nextAttemptId,
       { s with engineServerReady := some s.nextAttemptId,
                nextAttemptId := s.nextAttemptId + 1 }) := by
    simp [startEngineServer, h]
  have hrest := startCalls_pending n
    { s with engineServerReady := some s.nextAttemptId,
             nextAttemptId := s.nextAttemptId + 1 }
    s.nextAttemptId rfl
  have hlist : (startCalls (n + 1) s).1
      = s.nextAttemptId :: List.replicate n s.nextAttemptId := by
    simp [startCalls, hs, hrest]
  refine ⟨?_, ?_, ?_⟩
  · intro r hr
    rw [hlist] at hr
    rcases List.mem_cons.mp hr with h1 | h1
    · exact h1
    · exact List.eq_of_mem_replicate h1
  · simp [startCalls, hs, hrest]
  · intro hb cr ha
    cases hb <;> cases cr <;> cases ha <;> decide

/-- C1 witness: three concurrent calls on the idle initial state all get
attempt 0, exactly one attempt is created, and an attempt that spawns
spawns once. -/
theorem c1_single_flight_start_witness :
    (∀ r ∈ (startCalls 3 ⟨none, none, none, false, 0⟩).1, r = 0) ∧
    (startCalls 3 ⟨none, none, none, false, 0⟩).2.nextAttemptId = 0 + 1 ∧
    (∀ hb cr ha, (startAttemptBody hb cr ha).spawnCount ≤ 1) :=
  c1_single_flight_start 2 ⟨none, none, none, false, 0⟩ rfl

/-- C2: bounded startup poll — against a health endpoint that never
responds within the probe timeout (every probe runs to its 300 ms abort
and reports unhealthy), `waitForEngineHealthy` started at any instant with
the 10 s total budget resolves to `false` exactly at its deadline, hence no
earlier than the deadline and no later than the deadline plus one poll
interval. -/
theorem c2_bounded_startup_poll (start : Nat) :
    waitForEngineHealthy (fun _ => false) HEALTH_CHECK_TIMEOUT_MS
        (start + HEALTH_POLL_TOTAL_MS) start
      = (false, start + HEALTH_POLL_TOTAL_MS) ∧
    start + HEALTH_POLL_TOTAL_MS ≤
      (waitForEngineHealthy (fun _ => false) HEALTH_CHECK_TIMEOUT_MS
        (start + HEALTH_POLL_TOTAL_MS) start).2 ∧
    (waitForEngineHealthy (fun _ => false) HEALTH_CHECK_TIMEOUT_MS
        (start + HEALTH_POLL_TOTAL_MS) start).2 ≤
      start + HEALTH_POLL_TOTAL_MS + HEALTH_POLL_INTERVAL_MS := by
  have h10000 : start + HEALTH_POLL_TOTAL_MS = start + 500 * 20 := by
    simp [HEALTH_POLL_TOTAL_MS]
  have h := waitForEngineHealthy_never 20 start
  rw [h10000, h]
  refine ⟨rfl, le_refl _, by omega⟩

/-- C8: shutdown idempotence — `stopEngineServer` is a no-op (no state
change, no kill signals) when no worker process is owned, and a second
invocation right after any first one emits no signals and changes
nothing. -/
theorem c8_shutdown_idempotent (w g : Bool) (s : EngineState) :
    (s.engineServerProcess = none → stopEngineServer w g s = (s, [])) ∧
    stopEngineServer w g (stopEngineServer w g s).1
      = ((stopEngineServer w g s).1, []) := by
  constructor
  · intro h
    simp [stopEngineServer, h]
  · cases hp : s.engineServerProcess with
    | none => simp [stopEngineServer, hp]
    | some pid =>
        by_cases hst : s.isStoppingEngine
        · simp [stopEngineServer, hp, hst]
        · simp [stopEngineServer, hp, hst]

/-- C8 witness: stopping with no worker ever started is a no-op, and
stopping twice after a worker was started sends the signals once and the
second call none. -/
theorem c8_shutdown_idempotent_witness :
    stopEngineServer false true ⟨none, none, none, false, 0⟩
      = (⟨none, none, none, false, 0⟩, []) ∧
    stopEngineServer false true
        (stopEngineServer false true
          ⟨some ENGINE_PORT, some 4242, some 0, false, 1⟩).1
      = ((stopEngineServer false true
          ⟨some ENGINE_PORT, some 4242, some 0, false, 1⟩).1, []) :=
  ⟨(c8_shutdown_idempotent false true ⟨none, none, none, false, 0⟩).1 rfl,
   (c8_shutdown_idempotent false true
     ⟨some ENGINE_PORT, some 4242, some 0, false, 1⟩).2⟩

/-- C10: state cleared on worker exit — the `close` handler nulls the
process handle, the cached port and the start promise, so the next
`startEngineServer()` call creates a fresh attempt instead of returning the
dead worker's promise; and `stopEngineServer`'s guaranteed cleanup likewise
nulls all three fields. -/
theorem c10_state_cleared_on_exit (s : EngineState) (w g : Bool) (pid : Nat) :
    (onEngineClose s).engineServerPort = none ∧
    (onEngineClose s).engineServerReady = none ∧
    (onEngineClose s).engineServerProcess = none ∧
    (startEngineServer (onEngineClose s)).1 = s.nextAttemptId ∧
    (startEngineServer (onEngineClose s)).2.nextAttemptId
      = s.nextAttemptId + 1 ∧
    (s.engineServerProcess = some pid → s.isStoppingEngine = false →
      (stopEngineServer w g s).1.engineServerPort = none ∧
      (stopEngineServer w g s).1.engineServerReady = none ∧
      (stopEngineServer w g s).1.engineServerProcess = none) := by
  refine ⟨rfl, rfl, rfl, rfl, rfl, ?_⟩
  intro hp hstop
  simp [stopEngineServer, hp, hstop]

/-- C10 witness: instantiated on a ready state owning worker pid 4242. -/
theorem c10_state_cleared_on_exit_witness :
    (onEngineClose ⟨some ENGINE_PORT, some 4242, some 0, false, 1⟩).engineServerPort = none ∧
    (onEngineClose ⟨some ENGINE_PORT, some 4242, some 0, false, 1⟩).engineServerReady = none ∧
    (onEngineClose ⟨some ENGINE_PORT, some 4242, some 0, false, 1⟩).engineServerProcess = none ∧
    (startEngineServer (onEngineClose ⟨some ENGINE_PORT, some 4242, some 0, false, 1⟩)).1 = 1 ∧
    (startEngineServer (onEngineClose ⟨some ENGINE_PORT, some 4242, some 0, false, 1⟩)).2.nextAttemptId = 1 + 1 ∧
    ((⟨some ENGINE_PORT, some 4242, some 0, false, 1⟩ : EngineState).engineServerProcess = some 4242 →
     (⟨some ENGINE_PORT, some 4242, some 0, false, 1⟩ : EngineState).isStoppingEngine = false →
      (stopEngineServer true true ⟨some ENGINE_PORT, some 4242, some 0, false, 1⟩).1.engineServerPort = none ∧
      (stopEngineServer true true ⟨some ENGINE_PORT, some 4242, some 0, false, 1⟩).1.engineServerReady = none ∧
      (stopEngineServer true true ⟨some ENGINE_PORT, some 4242, some 0, false, 1⟩).1.engineServerProcess = none) :=
  c10_state_cleared_on_exit ⟨some ENGINE_PORT, some 4242, some 0, false, 1⟩ true true 4242

/-! ## Result retry claims -/

/-- The retryable sentinel response `{"ok":false,"error":"job not finished"}`. -/
def jobNotFinishedResp : Json :=
  .obj (jfields [("ok", .bool false), ("error", .str "job not finished")])

/-- A sentinel response carrying an extra detail payload, used to tell the
successive responses of a retry chain apart. -/
def notFinishedWith (detail : Json) : Json :=
  .obj (jfields [("ok", .bool false), ("error", .str "job not finished"),
                 ("detail", detail)])

/-- A fetch resolving with a truthy `ok` response returns it at once. -/
theorem fetchRetry_ok_step (resp : Nat → Except String Json) (a r : Nat)
    (p : Json) (h : resp a = .ok p)
    (hp : (jsonTruthy p && truthyField p "ok") = true) :
    fetchResultWithRetry resp a r = .ok p := by
  rw [fetchResultWithRetry.eq_def, h]
  simp [hp]

/-- A sentinel response consumes one retry and moves to the next attempt. -/
theorem fetchRetry_sentinel_step (resp : Nat → Except String Json) (a r : Nat)
    (p : Json) (h : resp a = .ok p)
    (hok : (jsonTruthy p && truthyField p "ok") = false)
    (hnf : (jsonTruthy p && p.fieldIsStr "error" "job not finished") = true) :
    fetchResultWithRetry resp a (r + 1) = fetchResultWithRetry resp (a + 1) r := by
  rw [fetchResultWithRetry.eq_def, h]
  simp [hok, hnf]

/-- A non-ok, non-sentinel response (or a sentinel with no retries left)
resolves with the response as-is. -/
theorem fetchRetry_terminal_step (resp : Nat → Except String Json) (a r : Nat)
    (p : Json) (h : resp a = .ok p)
    (hok : (jsonTruthy p && truthyField p "ok") = false)
    (hnf : (jsonTruthy p && p.fieldIsStr "error" "job not finished") = false) :
    fetchResultWithRetry resp a r = .ok p := by
  rw [fetchResultWithRetry.eq_def, h]
  simp [hok, hnf]

/-- A sentinel response with no retries left is also returned as-is. -/
theorem fetchRetry_sentinel_exhausted (resp : Nat → Except String Json)
    (a : Nat) (p : Json) (h : resp a = .ok p)
    (hok : (jsonTruthy p && truthyField p "ok") = false) :
    fetchResultWithRetry resp a 0 = .ok p := by
  rw [fetchResultWithRetry.eq_def, h]
  simp [hok]

/-- A rejected fetch propagates the rejection. -/
theorem fetchRetry_throw_step (resp : Nat → Except String Json) (a r : Nat)
    (e : String) (h : resp a = .error e) :
    fetchResultWithRetry resp a r = .error e := by
  rw [fetchResultWithRetry.eq_def, h]

/-- Under persistently sentinel responses every retry is consumed and the
response of the final attempt is returned. -/
theorem fetchRetry_exhaust (resp : Nat → Except String Json) (d : Nat → Json)
    (h : ∀ i, resp i = .ok (notFinishedWith (d i))) :
    ∀ r a, fetchResultWithRetry resp a r = .ok (notFinishedWith (d (a + r))) := by
  intro r
  induction r with
  | zero =>
      intro a
      simp only [Nat.add_zero]
      exact fetchRetry_sentinel_exhausted resp a (notFinishedWith (d a)) (h a)
        (by simp [notFinishedWith, jsonTruthy, truthyField, Json.getField,
                  lookupField, jfields])
  | succ r ih =>
      intro a
      have hstep := fetchRetry_sentinel_step resp a r (notFinishedWith (d a))
        (h a)
        (by simp [notFinishedWith, jsonTruthy, truthyField, Json.getField,
                  lookupField, jfields])
        (by simp [notFinishedWith, jsonTruthy, Json.fieldIsStr, Json.getField,
                  lookupField, jfields])
      rw [hstep, ih (a + 1)]
      have : a + 1 + r = a + (r + 1) := by omega
      rw [this]

/-- C4: result-fetch retry success — a `done` event whose result endpoint
answers the `job not finished` sentinel three times and then a successful
truthy-`ok` response produces exactly one `done` notification carrying that
successful payload, with no notification for the intermediate sentinel
responses. -/
theorem c4_result_fetch_retry_success (resp : Nat → Except String Json)
    (j : String) (p : Json)
    (h0 : resp 0 = .ok jobNotFinishedResp) (h1 : resp 1 = .ok jobNotFinishedResp)
    (h2 : resp 2 = .ok jobNotFinishedResp) (h3 : resp 3 = .ok p)
    (hp : (jsonTruthy p && truthyField p "ok") = true) :
    handleDone j resp
      = [Notif.done (jfields
          [("jobId", .str j), ("ok", .bool true), ("result", p)])] := by
  have cok : (jsonTruthy jobNotFinishedResp
      && truthyField jobNotFinishedResp "ok") = false := by decide
  have cnf : (jsonTruthy jobNotFinishedResp
      && jobNotFinishedResp.fieldIsStr "error" "job not finished") = true := by
    decide
  have e0 := fetchRetry_sentinel_step resp 0 9 jobNotFinishedResp h0 cok cnf
  have e1 := fetchRetry_sentinel_step resp 1 8 jobNotFinishedResp h1 cok cnf
  have e2 := fetchRetry_sentinel_step resp 2 7 jobNotFinishedResp h2 cok cnf
  have e3 := fetchRetry_ok_step resp 3 7 p h3 hp
  have hfetch : fetchResultWithRetry resp 0 10 = .ok p := by
    norm_num at e0 e1 e2
    rw [e0, e1, e2, e3]
  simp [handleDone, hfetch, hp]

/-- C4 witness: a concrete response sequence — three sentinels then a
successful result — yields the single successful done notification. -/
def c4OkResp : Json :=
  .obj (jfields [("ok", .bool true), ("filename", .str "x.pdf"),
                 ("pdf_base64", .str "JVBERi0xLjQ=")])

/-- Concrete result endpoint used by the C4 witness. -/
def c4Resp (n : Nat) : Except String Json :=
  if n < 3 then .ok jobNotFinishedResp else .ok c4OkResp

theorem c4_result_fetch_retry_success_witness :
    handleDone "j1" c4Resp
      = [Notif.done (jfields
          [("jobId", .str "j1"), ("ok", .bool true), ("result", c4OkResp)])] :=
  c4_result_fetch_retry_success c4Resp "j1" c4OkResp rfl rfl rfl rfl (by decide)

/-- C5: retry exhaustion surfaces the last response as-is — when every
result fetch returns the `job not finished` sentinel (here told apart by a
varying `detail` payload), the bounded retry chain resolves with the
response of the final attempt itself, and the done handler forwards that
response's own error text paired with a failed done, not a synthetic
timeout. -/
theorem c5_retry_exhaustion_last_response (resp : Nat → Except String Json)
    (j : String) (d : Nat → Json)
    (h : ∀ i, resp i = .ok (notFinishedWith (d i))) :
    fetchResultWithRetry resp 0 10 = resp 10 ∧
    handleDone j resp =
      [Notif.error (jfields
         [("jobId", .str j), ("message", .str "job not finished"),
          ("detail", jsOr (some (d 10)) (.str ""))]),
       Notif.done (jfields [("jobId", .str j), ("ok", .bool false)])] := by
  have hf := fetchRetry_exhaust resp d h 10 0
  norm_num at hf
  refine ⟨by rw [hf, h 10], ?_⟩
  simp [handleDone, hf, notFinishedWith, jsonTruthy, truthyField,
        Json.getField, lookupField, jfields, jsOr]

/-- Concrete result endpoint used by the C5 witness: attempt `i` answers
the sentinel with detail `i`. -/
def c5Resp (n : Nat) : Except String Json :=
  .ok (notFinishedWith (.num n))

theorem c5_retry_exhaustion_last_response_witness :
    fetchResultWithRetry c5Resp 0 10 = c5Resp 10 ∧
    handleDone "j1" c5Resp =
      [Notif.error (jfields
         [("jobId", .str "j1"), ("message", .str "job not finished"),
          ("detail", jsOr (some (.num 10)) (.str ""))]),
       Notif.done (jfields [("jobId", .str "j1"), ("ok", .bool false)])] :=
  c5_retry_exhaustion_last_response c5Resp "j1" (fun n => .num n)
    (fun _ => rfl)

/-- C6: error/done pairing — a result response that is neither truthy-`ok`
nor the retry sentinel is forwarded immediately as an error notification
paired with a failed done notification, and a rejected fetch likewise
yields the catch handler's error notification paired with a failed done. -/
theorem c6_error_done_pairing (resp resp2 : Nat → Except String Json)
    (j j2 : String) (r : Json) (e : String)
    (h0 : resp 0 = .ok r)
    (hok : (jsonTruthy r && truthyField r "ok") = false)
    (hnf : (jsonTruthy r && r.fieldIsStr "error" "job not finished") = false)
    (h2 : resp2 0 = .error e) :
    handleDone j resp =
      [Notif.error (jfields
         [("jobId", .str j),
          ("message", jsOr (r.getField "error") (.str "引擎执行失败")),
          ("detail", jsOr (r.getField "detail") (.str ""))]),
       Notif.done (jfields [("jobId", .str j), ("ok", .bool false)])] ∧
    handleDone j2 resp2 =
      [Notif.error (jfields
         [("jobId", .str j2), ("message", .str "获取结果失败"),
          ("detail", .str e)]),
       Notif.done (jfields [("jobId", .str j2), ("ok", .bool false)])] := by
  have hfetch := fetchRetry_terminal_step resp 0 10 r h0 hok hnf
  have hfetch2 := fetchRetry_throw_step resp2 0 10 e h2
  constructor
  · simp [handleDone, hfetch, hok]
  · simp [handleDone, hfetch2]

/-- Concrete hard-error result endpoint used by the C6 witness. -/
def c6HardErrResp : Json :=
  .obj (jfields [("ok", .bool false), ("error", .str "boom"),
                 ("detail", .str "trace")])

theorem c6_error_done_pairing_witness :
    handleDone "j1" (fun _ => .ok c6HardErrResp) =
      [Notif.error (jfields
         [("jobId", .str "j1"),
          ("message", jsOr (c6HardErrResp.getField "error") (.str "引擎执行失败")),
          ("detail", jsOr (c6HardErrResp.getField "detail") (.str ""))]),
       Notif.done (jfields [("jobId", .str "j1"), ("ok", .bool false)])] ∧
    handleDone "j2" (fun _ => .error "socket hang up") =
      [Notif.error (jfields
         [("jobId", .str "j2"), ("message", .str "获取结果失败"),
          ("detail", .str "socket hang up")]),
       Notif.done (jfields [("jobId", .str "j2"), ("ok", .bool false)])] :=
  c6_error_done_pairing (fun _ => .ok c6HardErrResp)
    (fun _ => .error "socket hang up") "j1" "j2" c6HardErrResp
    "socket hang up" rfl (by decide) (by decide) rfl

/-! ## Renderer filtering and start-translate claims -/

/-- Renderer state watching job `j1`, mid-translation, used to exercise the
notification handlers on foreign jobIds. -/
def c7State : AppState :=
  { progressPct := 10, statusText := "translating", isTranslating := true,
    result := none, outputFilename := "", selectedFilePath := some "/tmp/a.pdf",
    sourceFileName := "a.pdf", errorText := "", jobIdWatched := some "j1" }

/-- C7 counterexample: an error notification carrying the jobId `""` — a
jobId different from the watched `"j1"` — does change the renderer state
(the error handler treats a falsy jobId as global), so not every
notification with a foreign jobId is ignored. -/
theorem c7_foreign_job_filtering_cex :
    c7State.jobIdWatched = some "j1" ∧ some "" ≠ c7State.jobIdWatched ∧
    onErrorMsg c7State (some "") "boom" ≠ c7State := by decide

/-- C7 amended: a progress or done notification carrying any jobId
different from the watched one produces no state change, and an error
notification carrying a non-empty jobId different from the watched one
produces no state change (an error with an empty/absent jobId is treated
as global rather than foreign). -/
theorem c7_foreign_job_filtering_amended (st : AppState) (j : String)
    (hj : some j ≠ st.jobIdWatched) (pct : Int) (stage message : String)
    (ok : Bool) (res : Option (String × String)) (m : String) :
    onProgressMsg st (some j) pct stage message = st ∧
    onDoneMsg st (some j) ok res = (st, false) ∧
    (j ≠ "" → onErrorMsg st (some j) m = st) := by
  have hd : decide (some j = st.jobIdWatched) = false := decide_eq_false hj
  refine ⟨?_, ?_, ?_⟩
  · simp [onProgressMsg, hd]
  · simp [onDoneMsg, hd]
  · intro hne
    simp [onErrorMsg, hd, strTruthy, hne]

/-- C7 amended witness: a notification for job `j2` while watching `j1`
leaves the state unchanged for all three channels. -/
theorem c7_foreign_job_filtering_amended_witness :
    onProgressMsg c7State (some "j2") 55 "stage" "msg" = c7State ∧
    onDoneMsg c7State (some "j2") true (some ("x.pdf", "JVBERi0=")) = (c7State, false) ∧
    ("j2" ≠ "" → onErrorMsg c7State (some "j2") "boom" = c7State) :=
  c7_foreign_job_filtering_amended c7State "j2" (by decide) 55 "stage" "msg"
    true (some ("x.pdf", "JVBERi0=")) "boom"

/-- C9: unsupported service rejection — a start-translate request with a
non-empty file path and a service other than google/bing first awaits
`startEngineServer()` (here resolving successfully), then sends an error
notification with a null jobId and throws, and never POSTs `/translate`,
so no job is submitted. -/
theorem c9_unsupported_service_rejection (fp sv : String) (port : Nat)
    (tj : Option String) (hfp : fp ≠ "") (hg : sv ≠ "google")
    (hb : sv ≠ "bing") :
    startTranslateHandler fp sv (.ok port) tj =
      ([.ensureEngine, .notifyError none ("不支持的翻译服务: " ++ sv)],
       .error ("不支持的翻译服务: " ++ sv)) ∧
    ∀ p s, MainAction.postTranslate p s
      ∉ (startTranslateHandler fp sv (.ok port) tj).1 := by
  have h : startTranslateHandler fp sv (.ok port) tj =
      ([.ensureEngine, .notifyError none ("不支持的翻译服务: " ++ sv)],
       .error ("不支持的翻译服务: " ++ sv)) := by
    simp [startTranslateHandler, hfp, hg, hb]
  refine ⟨h, ?_⟩
  intro p s
  rw [h]
  simp

/-- C9 witness: requesting service `deepl` for a real path ensures the
engine, notifies the error, throws, and submits nothing. -/
theorem c9_unsupported_service_rejection_witness :
    startTranslateHandler "/tmp/a.pdf" "deepl" (.ok 18080) none =
      ([.ensureEngine, .notifyError none ("不支持的翻译服务: " ++ "deepl")],
       .error ("不支持的翻译服务: " ++ "deepl")) ∧
    ∀ p s, MainAction.postTranslate p s
      ∉ (startTranslateHandler "/tmp/a.pdf" "deepl" (.ok 18080) none).1 :=
  c9_unsupported_service_rejection "/tmp/a.pdf" "deepl" 18080 none
    (by decide) (by decide) (by decide)

/-! ## Stream chunking claim -/

/-- The byte sequence of the C3 scenario: one complete progress event
frame for job j1 at 42 percent. -/
def c3Bytes : List Char :=
  "data: \x7b\"type\":\"progress\",\"jobId\":\"j1\",\"pct\":42\x7d\n".data

/-- The merged `{ jobId, ...payload }` object of the resulting progress
notification (the spread payload fields take precedence under
first-entry-wins lookup). -/
def c3ProgressData : JFields :=
  jfields [("type", .str "progress"), ("jobId", .str "j1"), ("pct", .num 42),
           ("jobId", .str "j1")]

set_option maxRecDepth 4000

/-- C3: chunking-invariant stream parsing — for every split of the 48-byte
progress frame into two chunks delivered in order, the relay emits exactly
the same actions as for a single-chunk delivery: exactly one progress
notification whose data carries pct 42 and jobId j1. -/
theorem c3_chunking_invariant_parsing (i : Nat) (h : i ≤ 48) :
    runStream "j1" [c3Bytes.take i, c3Bytes.drop i] = runStream "j1" [c3Bytes] ∧
    runStream "j1" [c3Bytes] = ([], [RelayAction.sendProgress c3ProgressData]) ∧
    lookupField c3ProgressData "pct" = some (.num 42) ∧
    lookupField c3ProgressData "jobId" = some (.str "j1") := by
  refine ⟨?_, by decide, by decide, by decide⟩
  revert h
  revert i
  decide

/-- C3 witness: the split after byte 7 (mid-way through the JSON payload)
behaves exactly like single-chunk delivery. -/
theorem c3_chunking_invariant_parsing_witness :
    runStream "j1" [c3Bytes.take 7, c3Bytes.drop 7] = runStream "j1" [c3Bytes] ∧
    runStream "j1" [c3Bytes] = ([], [RelayAction.sendProgress c3ProgressData]) ∧
    lookupField c3ProgressData "pct" = some (.num 42) ∧
    lookupField c3ProgressData "jobId" = some (.str "j1") :=
  c3_chunking_invariant_parsing 7 (by norm_num)
